import Mathlib

/-!
Verification of the retrieval-fusion and corrective-context pipeline
(`context_engineering` repository) against its natural-language specification.

The Python modules are shallowly embedded as executable Lean definitions:
pure functions become Lean functions, the filesystem-backed scratchpad and
the external collaborators (vector backends, graph store, LLM call, token
counter, RNG draw) become explicit parameters, and fallible operations
return `Except`.
-/

namespace ContextEng

/-- A retrieval chunk (`modules/document_processing.py` schema, consumed by
`ContextEngineer.select_context` and `GraphRetriever.ingest_minimal`).
`tokens_estimate` is `Option Int` so that a malformed chunk — one whose dict
is missing the `tokens_estimate` key — is representable (`none`). -/
structure Chunk where
  id : String
  source_filename : String
  page : Int
  text : String
  tokens_estimate : Option Int
deriving DecidableEq, Repr

/-- `chunk.get("tokens_estimate", 0)` from `select_context`. -/
def chunkTokens (c : Chunk) : Int :=
  c.tokens_estimate.getD 0

/-- Return value of `ContextEngineer.select_context`. -/
structure ContextSelection where
  selected_chunks : List Chunk
  total_tokens : Int
  dropped_count : Nat
deriving DecidableEq, Repr

/-- The accumulation loop of `ContextEngineer.select_context`
(`modules/context_engineering.py`, lines 75-81): walk the chunks in order,
keeping a running token total; `break` at the first chunk whose addition
would exceed `max_tokens`. Returns the selected chunks and the final total. -/
def selectGo (max_tokens : Int) : List Chunk → Int → List Chunk × Int
  | [], current_tokens => ([], current_tokens)
  | chunk :: rest, current_tokens =>
    let tokens := chunkTokens chunk
    if current_tokens + tokens > max_tokens then
      ([], current_tokens)
    else
      let r := selectGo max_tokens rest (current_tokens + tokens)
      (chunk :: r.1, r.2)

/-- `ContextEngineer.select_context(chunks, max_tokens)`
(`modules/context_engineering.py`, lines 65-87). -/
def select_context (chunks : List Chunk) (max_tokens : Int) : ContextSelection :=
  let r := selectGo max_tokens chunks 0
  { selected_chunks := r.1
    total_tokens := r.2
    dropped_count := chunks.length - r.1.length }

/-! ### Helper lemmas about the selection loop -/

theorem selectGo_total (m : Int) :
    ∀ (l : List Chunk) (cur : Int),
      (selectGo m l cur).2 = cur + ((selectGo m l cur).1.map chunkTokens).sum := by
  intro l
  induction l with
  | nil => intro cur; simp [selectGo]
  | cons c rest ih =>
    intro cur
    simp only [selectGo]
    by_cases h : cur + chunkTokens c > m
    · simp [h]
    · simp only [h, if_neg, ite_false]
      simp only [List.map_cons, List.sum_cons]
      rw [ih (cur + chunkTokens c)]
      ring

theorem selectGo_le (m : Int) :
    ∀ (l : List Chunk) (cur : Int), cur ≤ m → (selectGo m l cur).2 ≤ m := by
  intro l
  induction l with
  | nil => intro cur h; simpa [selectGo] using h
  | cons c rest ih =>
    intro cur h
    simp only [selectGo]
    by_cases hc : cur + chunkTokens c > m
    · simpa [hc] using h
    · simp only [hc, ite_false]
      exact ih (cur + chunkTokens c) (not_lt.mp hc)

theorem selectGo_prefix_input (m : Int) :
    ∀ (l : List Chunk) (cur : Int), (selectGo m l cur).1 <+: l := by
  intro l
  induction l with
  | nil => intro cur; simp [selectGo]
  | cons c rest ih =>
    intro cur
    simp only [selectGo]
    by_cases hc : cur + chunkTokens c > m
    · simp [hc, List.nil_prefix]
    · simp only [hc, ite_false]
      exact List.cons_prefix_cons.mpr ⟨rfl, ih (cur + chunkTokens c)⟩

theorem selectGo_stop (m : Int) :
    ∀ (l : List Chunk) (cur : Int) (c : Chunk),
      l.get? (selectGo m l cur).1.length = some c →
      (selectGo m l cur).2 + chunkTokens c > m := by
  intro l
  induction l with
  | nil => intro cur c h; simp at h
  | cons d rest ih =>
    intro cur c h
    simp only [selectGo] at h ⊢
    by_cases hc : cur + chunkTokens d > m
    · simp only [hc, ite_true] at h ⊢
      simp only [List.length_nil, List.get?] at h
      cases h
      exact hc
    · simp only [hc, ite_false] at h ⊢
      simp only [List.length_cons, List.get?] at h
      exact ih (cur + chunkTokens d) c h

/-! ### Concrete chunks for the spec scenarios -/

/-- A 100-token chunk, as in Scenario A of the spec. -/
def chunk100 (i : Nat) : Chunk :=
  { id := toString i
    source_filename := "doc.pdf"
    page := Int.ofNat i
    text := "some chunk text"
    tokens_estimate := some 100 }

/-- A chunk whose dict is missing the `tokens_estimate` key. -/
def malformedChunk : Chunk :=
  { id := "m1"
    source_filename := "bad.pdf"
    page := 1
    text := "chunk with no token estimate"
    tokens_estimate := none }

/-- C1: `select_context` is exact greedy-stop prefix selection: the selected
chunks are a prefix of the input (so once acceptance stops, every later chunk
is dropped, even one that would individually fit), `total_tokens` is the sum
of `tokens_estimate` over the selected chunks and is at most `max_tokens`,
`dropped_count = len(input) - len(selected)`, and the first unselected chunk
(when one exists) is exactly one whose addition would exceed the budget.
In particular, for 3 chunks of 100 tokens each with `max_tokens = 250`,
exactly the first 2 chunks are selected (200 tokens) and one is dropped. -/
theorem select_context_greedy_stop (chunks : List Chunk) (max_tokens : Int)
    (h : 0 ≤ max_tokens) :
    (select_context chunks max_tokens).selected_chunks <+: chunks ∧
    (select_context chunks max_tokens).total_tokens =
      ((select_context chunks max_tokens).selected_chunks.map chunkTokens).sum ∧
    (select_context chunks max_tokens).total_tokens ≤ max_tokens ∧
    (select_context chunks max_tokens).dropped_count =
      chunks.length - (select_context chunks max_tokens).selected_chunks.length ∧
    (∀ c, chunks.get? (select_context chunks max_tokens).selected_chunks.length = some c →
      (select_context chunks max_tokens).total_tokens + chunkTokens c > max_tokens) ∧
    select_context [chunk100 1, chunk100 2, chunk100 3] 250 =
      { selected_chunks := [chunk100 1, chunk100 2]
        total_tokens := 200
        dropped_count := 1 } := by
  refine ⟨selectGo_prefix_input max_tokens chunks 0, ?_, ?_, rfl, ?_, by decide⟩
  · have := selectGo_total max_tokens chunks 0
    simpa [select_context] using this
  · exact selectGo_le max_tokens chunks 0 h
  · intro c hc
    exact selectGo_stop max_tokens chunks 0 c hc

/-- Witness for `select_context_greedy_stop` at Scenario A's input. -/
theorem select_context_greedy_stop_witness :
    (0 : Int) ≤ 250 ∧
    ((select_context [chunk100 1, chunk100 2, chunk100 3] 250).selected_chunks <+:
        [chunk100 1, chunk100 2, chunk100 3] ∧
      (select_context [chunk100 1, chunk100 2, chunk100 3] 250).total_tokens =
        ((select_context [chunk100 1, chunk100 2, chunk100 3] 250).selected_chunks.map
            chunkTokens).sum ∧
      (select_context [chunk100 1, chunk100 2, chunk100 3] 250).total_tokens ≤ 250 ∧
      (select_context [chunk100 1, chunk100 2, chunk100 3] 250).dropped_count =
        [chunk100 1, chunk100 2, chunk100 3].length -
          (select_context [chunk100 1, chunk100 2, chunk100 3] 250).selected_chunks.length ∧
      (∀ c,
          [chunk100 1, chunk100 2, chunk100 3].get?
              (select_context [chunk100 1, chunk100 2, chunk100 3] 250).selected_chunks.length =
            some c →
          (select_context [chunk100 1, chunk100 2, chunk100 3] 250).total_tokens +
              chunkTokens c > 250) ∧
      select_context [chunk100 1, chunk100 2, chunk100 3] 250 =
        { selected_chunks := [chunk100 1, chunk100 2]
          total_tokens := 200
          dropped_count := 1 }) :=
  ⟨by norm_num,
    select_context_greedy_stop [chunk100 1, chunk100 2, chunk100 3] 250 (by norm_num)⟩

/-- C9 counterexample: a chunk missing `tokens_estimate` is NOT skipped and
NOT counted toward `dropped_count` — `select_context` admits it into the
selected context (its token count defaults to 0 via `chunk.get`). -/
theorem select_context_malformed_counterexample :
    (select_context [malformedChunk] 3000).selected_chunks = [malformedChunk] ∧
    malformedChunk ∈ (select_context [malformedChunk] 3000).selected_chunks ∧
    (select_context [malformedChunk] 3000).dropped_count = 0 := by
  decide

/-- C9 amended: a chunk with no `tokens_estimate` field is treated as
contributing 0 tokens; while acceptance is still running (budget not yet
exceeded) it is admitted into the selected context, adds nothing to
`total_tokens`, never triggers the stop, and is never counted toward
`dropped_count`. -/
theorem select_context_malformed_admitted (c : Chunk) (rest : List Chunk)
    (max_tokens : Int) (hc : c.tokens_estimate = none) (h : 0 ≤ max_tokens) :
    (select_context (c :: rest) max_tokens).selected_chunks =
      c :: (select_context rest max_tokens).selected_chunks ∧
    (select_context (c :: rest) max_tokens).total_tokens =
      (select_context rest max_tokens).total_tokens ∧
    (select_context (c :: rest) max_tokens).dropped_count =
      (select_context rest max_tokens).dropped_count := by
  have htok : chunkTokens c = 0 := by simp [chunkTokens, hc]
  have hneg : ¬ max_tokens < 0 := not_lt.mpr h
  constructor
  · simp [select_context, selectGo, hneg, htok]
  constructor
  · simp [select_context, selectGo, hneg, htok]
  · simp [select_context, selectGo, hneg, htok, Nat.succ_sub_succ]

/-- Witness for `select_context_malformed_admitted` at a concrete input. -/
theorem select_context_malformed_admitted_witness :
    malformedChunk.tokens_estimate = none ∧ (0 : Int) ≤ 3000 ∧
    ((select_context [malformedChunk] 3000).selected_chunks =
        malformedChunk :: (select_context [] 3000).selected_chunks ∧
      (select_context [malformedChunk] 3000).total_tokens =
        (select_context [] 3000).total_tokens ∧
      (select_context [malformedChunk] 3000).dropped_count =
        (select_context [] 3000).dropped_count) :=
  ⟨rfl, by norm_num,
    select_context_malformed_admitted malformedChunk [] 3000 rfl (by norm_num)⟩

/-! ## Retrieval fusion (`modules/retrieval_modes.py`, `HybridRetriever`) -/

/-- A vector-store document (`langchain` `Document`): page content plus the
chunk metadata; only the `id` metadata key matters for fusion. `id = none`
models a document whose metadata lacks the `id` key. -/
structure Doc where
  id : Option Int
  page_content : String
deriving DecidableEq, Repr

/-- The deduplication key used by `HybridRetriever.retrieve`: either a chunk
id or a content hash (modelled injectively by the content itself). -/
inductive DedupKey where
  | fromId (i : Int)
  | fromHash (content : String)
deriving DecidableEq, Repr

/-- `doc.metadata.get("id", hash(doc.page_content))` from
`HybridRetriever.retrieve`: the dedup key is the chunk id when present,
otherwise a content hash. -/
def docKey (d : Doc) : DedupKey :=
  match d.id with
  | some i => DedupKey.fromId i
  | none => DedupKey.fromHash d.page_content

/-- The merge-and-deduplicate loop of `HybridRetriever.retrieve`
(`modules/retrieval_modes.py`, lines 75-82): walk the concatenated backend
results, keeping each document whose key has not been seen yet (Python's
insertion-ordered `unique_docs` dict). -/
def dedupGo : List Doc → List DedupKey → List Doc
  | [], _ => []
  | d :: rest, seen =>
    if docKey d ∈ seen then dedupGo rest seen
    else d :: dedupGo rest (docKey d :: seen)

/-- `HybridRetriever.retrieve(query, k)` (`modules/retrieval_modes.py`,
lines 56-83), parameterized by the outputs of the two vector backends:
`faiss_results` from the diversity-oriented MMR search (priority backend)
and `chroma_results` from the similarity search. A failed or absent backend
contributes the empty list. Results are concatenated in priority order,
deduplicated first-seen by key, and truncated to `k` after merging. -/
def hybridRetrieve (faiss_results chroma_results : List Doc) (k : Nat) : List Doc :=
  (dedupGo (faiss_results ++ chroma_results) []).take k

/-- Restated from the spec's words (§4.1): deduplicate by key keeping the
first-seen occurrence — keep the head, drop every later document with the
same key, recurse. Used only to compare against `dedupGo`. -/
def dedupFirstSeen : List Doc → List Doc
  | [] => []
  | d :: rest => d :: dedupFirstSeen (rest.filter (fun e => docKey e ≠ docKey d))
termination_by l => l.length
decreasing_by
  simp only [List.length_cons]
  exact Nat.lt_succ_of_le (List.length_filter_le _ _)

theorem dedupFirstSeen_cons (d : Doc) (rest : List Doc) :
    dedupFirstSeen (d :: rest) =
      d :: dedupFirstSeen (rest.filter (fun e => decide (docKey e ≠ docKey d))) := by
  rw [dedupFirstSeen]

theorem dedupGo_eq_dedupFirstSeen :
    ∀ (l : List Doc) (seen : List DedupKey),
      dedupGo l seen = dedupFirstSeen (l.filter (fun d => decide (docKey d ∉ seen))) := by
  intro l
  induction l with
  | nil => intro seen; simp [dedupGo, dedupFirstSeen]
  | cons d rest ih =>
    intro seen
    by_cases hd : docKey d ∈ seen
    · have h1 : dedupGo (d :: rest) seen = dedupGo rest seen := by
        simp [dedupGo, hd]
      have h2 : (d :: rest).filter (fun e => decide (docKey e ∉ seen)) =
          rest.filter (fun e => decide (docKey e ∉ seen)) := by
        simp [hd]
      rw [h1, h2, ih seen]
    · have h1 : dedupGo (d :: rest) seen = d :: dedupGo rest (docKey d :: seen) := by
        simp [dedupGo, hd]
      have h2 : (d :: rest).filter (fun e => decide (docKey e ∉ seen)) =
          d :: rest.filter (fun e => decide (docKey e ∉ seen)) := by
        simp [hd]
      rw [h1, h2, ih (docKey d :: seen), dedupFirstSeen_cons, List.filter_filter]
      congr 2
      apply List.filter_congr
      intro e _
      by_cases h1 : docKey e = docKey d
      · simp [h1, hd]
      · by_cases h2 : docKey e ∈ seen <;> simp [h1, h2]

theorem dedupGo_distinct :
    ∀ (l : List Doc) (seen : List DedupKey),
      (∀ d ∈ dedupGo l seen, docKey d ∉ seen) ∧
      (dedupGo l seen).Pairwise (fun a b => docKey a ≠ docKey b) := by
  intro l
  induction l with
  | nil => intro seen; simp [dedupGo]
  | cons d rest ih =>
    intro seen
    by_cases hd : docKey d ∈ seen
    · simpa [dedupGo, hd] using ih seen
    · simp only [dedupGo, hd, ite_false]
      obtain ⟨hmem, hpw⟩ := ih (docKey d :: seen)
      refine ⟨?_, ?_⟩
      · intro e he
        rcases List.mem_cons.mp he with rfl | he
        · exact hd
        · exact fun hs => hmem e he (List.mem_cons_of_mem _ hs)
      · refine List.pairwise_cons.mpr ⟨?_, hpw⟩
        intro b hb hkey
        exact hmem b hb (hkey ▸ List.mem_cons_self _ _)

/-- Concrete vector-store documents for Scenario B of the spec. -/
def vdoc (i : Int) (content : String) : Doc :=
  { id := some i, page_content := content }

/-- C2: `HybridRetriever.retrieve` merges by concatenating the two backend
outputs in fixed priority order (diversity backend first, similarity backend
second), deduplicates by key — the chunk id, falling back to a content hash
when the id is absent — keeping the first-seen occurrence, and truncates to
`k` only after merging (agreeing with the spec-side first-seen dedup
`dedupFirstSeen`). Consequently on Scenario B's inputs — backend 1 returns
ids [1,2,3], backend 2 returns ids [2,4] — `retrieve` with k = 3 returns
ids [1,2,3] in that order. -/
theorem hybridRetrieve_merge_policy :
    (∀ (faiss_results chroma_results : List Doc) (k : Nat),
      hybridRetrieve faiss_results chroma_results k =
        (dedupFirstSeen (faiss_results ++ chroma_results)).take k) ∧
    hybridRetrieve [vdoc 1 "a", vdoc 2 "b", vdoc 3 "c"] [vdoc 2 "bbis", vdoc 4 "d"] 3 =
      [vdoc 1 "a", vdoc 2 "b", vdoc 3 "c"] := by
  constructor
  · intro f c k
    unfold hybridRetrieve
    rw [dedupGo_eq_dedupFirstSeen]
    congr 2
    simp
  · decide

/-- C3: for every pair of backend outputs (hence every query) and every
`k ≥ 0`, `HybridRetriever.retrieve` returns at most `k` documents, and no
two returned documents share an id. -/
theorem hybridRetrieve_bounded_unique
    (faiss_results chroma_results : List Doc) (k : Nat) :
    (hybridRetrieve faiss_results chroma_results k).length ≤ k ∧
    (hybridRetrieve faiss_results chroma_results k).Pairwise
      (fun a b => ∀ i : Int, a.id = some i → b.id ≠ some i) := by
  constructor
  · exact List.length_take_le k _
  · have hpw := (dedupGo_distinct (faiss_results ++ chroma_results) []).2
    have htake : (hybridRetrieve faiss_results chroma_results k).Pairwise
        (fun a b => docKey a ≠ docKey b) :=
      List.Pairwise.sublist (List.take_sublist k _) hpw
    refine htake.imp ?_
    intro a b hk i ha hb
    apply hk
    simp [docKey, ha, hb]

/-! ## Quality gate (`modules/advanced_rag.py`, `AdvancedRAG.evaluate_quality`) -/

/-- `config.CONTEXT_QUALITY_THRESHOLDS` (`config.py`, lines 95-99). -/
def THRESHOLD_EXCELLENT : ℚ := 8/10
def THRESHOLD_GOOD : ℚ := 65/100
def THRESHOLD_FAIR : ℚ := 5/10

/-- Return value of `AdvancedRAG.evaluate_quality`. -/
structure QualityAssessment where
  score : ℚ
  label : String
deriving DecidableEq, Repr

/-- `AdvancedRAG.evaluate_quality(context)` (`modules/advanced_rag.py`,
lines 28-43). The code draws `score = random.uniform(0.4, 0.95)` from the
process-global PRNG; that draw is made explicit as the `random_draw`
parameter. The label is derived from the score by the threshold chain;
the `context` argument is never read. -/
def evaluate_quality (random_draw : ℚ) (context : List Chunk) : QualityAssessment :=
  let score := random_draw
  let label :=
    if score ≥ THRESHOLD_EXCELLENT then "EXCELLENT"
    else if score ≥ THRESHOLD_GOOD then "GOOD"
    else if score ≥ THRESHOLD_FAIR then "FAIR"
    else "POOR"
  { score := score, label := label }

/-! ## Role prompts (`modules/role_prompts.py`) -/

/-- `RolePrompts.NORMAL_CHATBOT`. -/
def NORMAL_CHATBOT : String :=
  "\n    You are a helpful and friendly AI assistant.\n    Your goal is to engage in natural, open-ended conversation while providing accurate information.\n    - Be polite, concise, and clear.\n    - Answer questions directly and admit if you don't know something.\n    - Maintain a conversational tone.\n    "

/-- `RolePrompts.CODING_AGENT`. -/
def CODING_AGENT : String :=
  "\n    You are an expert Software Engineer and Coding Assistant.\n    Your goal is to help write, debug, and explain code.\n    - Provide clean, efficient, and well-commented code snippets.\n    - Explain the logic behind your solutions.\n    - Follow best practices and design patterns.\n    - If asked to fix a bug, explain the root cause and the solution.\n    "

/-- `RolePrompts.DOCUMENT_ANALYSER`. -/
def DOCUMENT_ANALYSER : String :=
  "\n    You are a specialized Document Analyst.\n    Your goal is to extract insights, summarize content, and answer questions based strictly on the provided documents.\n    - Base your answers ONLY on the context provided.\n    - If the information is not in the documents, state that clearly.\n    - Provide citations or references to specific sections if possible.\n    - Summarize complex information into clear, digestible points.\n    "

/-- `RolePrompts.get_prompt(role)` (`modules/role_prompts.py`, lines 32-41). -/
def get_prompt (role : String) : String :=
  if role = "Normal Chatbot" then NORMAL_CHATBOT
  else if role = "Coding Agent" then CODING_AGENT
  else if role = "Document Analyser" then DOCUMENT_ANALYSER
  else NORMAL_CHATBOT

/-! ## Orchestrator (`modules/advanced_rag.py`, `AdvancedRAG`) -/

/-- The retrieval mode strings of `RetrievalMode` in
`modules/retrieval_modes.py`, as a closed variant (run_pipeline dispatches on
the enum `.value` strings). -/
inductive RetrievalMode where
  | Traditional
  | KnowledgeGraph
  | Hybrid
deriving DecidableEq, Repr

/-- The subgraph bundle returned by `GraphRetriever.retrieve`
(`modules/retrieval_modes.py`, lines 138-168). -/
structure GraphBundle where
  nodes : List String
  edges : List String
  supporting_texts : List String
deriving DecidableEq, Repr

/-- `AdvancedRAG._format_context_block(chunks, limit)`
(`modules/advanced_rag.py`, lines 45-59). -/
def format_context_block (chunks : List Chunk) (limit : Nat) : String :=
  if chunks.isEmpty then
    "No supporting documents were retrieved."
  else
    String.intercalate "\n\n"
      ((chunks.take limit).map (fun chunk =>
        "Source: " ++ chunk.source_filename ++ " (Page " ++ toString chunk.page ++ ")\n"
          ++ chunk.text))

/-- Return value of `AdvancedRAG._generate_llm_answer`. -/
structure LlmOutputs where
  answer_text : String
  raw_response : String
  prompt_tokens : Nat
  final_prompt : String
deriving DecidableEq, Repr

/-- The fallback answer string built in the `except` branch of
`AdvancedRAG._generate_llm_answer` (`modules/advanced_rag.py`, lines 92-96). -/
def fallbackText (exc : String) : String :=
  "[Fallback Response] Unable to contact LLM: " ++ exc
    ++ ". Returning synthesized placeholder answer instead."

/-- The user prompt built by `AdvancedRAG._generate_llm_answer`
(`modules/advanced_rag.py`, lines 67-72). -/
def user_prompt_of (query context_block : String) : String :=
  "Use only the context below to answer the question. If the answer cannot be derived from the context, say you do not have enough information.\n\nContext:\n"
    ++ context_block ++ "\n\nQuestion: " ++ query

/-- `AdvancedRAG._generate_llm_answer(query, selected_docs, role)`
(`modules/advanced_rag.py`, lines 61-102). External collaborators are
explicit: `count_tokens` is `TokenAnalyzer.count_tokens` (tiktoken), and
`llm_invoke` is the outcome of `self.llm.invoke` — `Except.ok content` on
success, `Except.error exc` when the call raises (transport, timeout or
quota failure). `prompt_tokens` is computed before the call is attempted. -/
def generate_llm_answer (count_tokens : String → Nat)
    (llm_invoke : Except String String) (query : String)
    (selected_docs : List Chunk) (role : String) : LlmOutputs :=
  let role_prompt := (get_prompt role).trim
  let context_block := format_context_block selected_docs 5
  let user_prompt := user_prompt_of query context_block
  let prompt_tokens := count_tokens (role_prompt ++ "\n\n" ++ user_prompt)
  let final_prompt := role_prompt ++ "\n\n" ++ user_prompt
  match llm_invoke with
  | Except.ok content =>
    { answer_text := content
      raw_response := content
      prompt_tokens := prompt_tokens
      final_prompt := final_prompt }
  | Except.error exc =>
    let fallback_text := fallbackText exc
    { answer_text := fallback_text
      raw_response := fallback_text
      prompt_tokens := prompt_tokens
      final_prompt := final_prompt }

/-- `token_usage` sub-dict of the response metrics. -/
structure TokenUsage where
  raw_context_tokens : Int
  prepared_context_tokens : Int
  prompt_tokens : Nat
deriving DecidableEq, Repr

/-- `metrics` sub-dict of the response. -/
structure Metrics where
  quality_score : ℚ
  retrieval_mode : RetrievalMode
  token_usage : TokenUsage
deriving DecidableEq, Repr

/-- `prompt_views` sub-dict of the response. -/
structure PromptViews where
  raw_context : String
  prepared_context : String
  final_prompt : String
deriving DecidableEq, Repr

/-- The structured response dict built by `AdvancedRAG.run_pipeline`
(`modules/advanced_rag.py`, lines 150-171). -/
structure PipelineResponse where
  answer : String
  confidence : String
  sources : List String
  limitations : String
  llm_output : String
  tools_used : List String
  prompt_views : PromptViews
  metrics : Metrics
deriving DecidableEq, Repr

/-- The evidence handed to `select_context` by `run_pipeline`: the list
`doc_dicts = [d.metadata for d in retrieved_docs]`
(`modules/advanced_rag.py`, lines 111-131), where `retrieved_docs` is filled
only by the vector-retrieval branch (Traditional or Hybrid). The graph
bundle is an argument for completeness: the source never feeds it into
`doc_dicts`. -/
def pipeline_budgeter_input (mode : RetrievalMode) (vector_results : List Chunk)
    (graph_results : GraphBundle) : List Chunk :=
  if mode = RetrievalMode.Traditional ∨ mode = RetrievalMode.Hybrid then
    vector_results
  else
    []

/-- `AdvancedRAG.run_pipeline(query, mode, role)` (`modules/advanced_rag.py`,
lines 104-174), with the external collaborators explicit: `vector_results`
is the output of `HybridRetriever.retrieve`, `graph_results` the bundle from
`GraphRetriever.retrieve`, `llm_invoke` the LLM call outcome, `quality_draw`
the `random.uniform(0.4, 0.95)` draw of `evaluate_quality`, and
`count_tokens` the tiktoken counter. Scratchpad logging is modelled
separately in `run_pipeline_logged`. -/
def run_pipeline (count_tokens : String → Nat) (vector_results : List Chunk)
    (graph_results : GraphBundle) (llm_invoke : Except String String)
    (quality_draw : ℚ) (query : String) (mode : RetrievalMode) (role : String) :
    PipelineResponse :=
  let tools_used :=
    (if mode = RetrievalMode.Traditional ∨ mode = RetrievalMode.Hybrid then
      ["Vector Store (FAISS + Chroma)"] else [])
    ++ (if mode = RetrievalMode.KnowledgeGraph ∨ mode = RetrievalMode.Hybrid then
      ["Knowledge Graph (Neo4j)"] else [])
  let doc_dicts := pipeline_budgeter_input mode vector_results graph_results
  let raw_tokens := (doc_dicts.map chunkTokens).sum
  let raw_context_text := format_context_block doc_dicts 10
  let selection := select_context doc_dicts 3000
  let selected_docs := selection.selected_chunks
  let prepared_tokens := selection.total_tokens
  let prepared_context_text := format_context_block selected_docs 10
  let quality := evaluate_quality quality_draw selected_docs
  let llm_outputs := generate_llm_answer count_tokens llm_invoke query selected_docs role
  { answer := llm_outputs.answer_text
    confidence := if quality.score > 7/10 then "High" else "Medium"
    sources := selected_docs.map (fun d => d.source_filename)
    limitations := "Generated by a scaffold system. Verify with original docs."
    llm_output := llm_outputs.raw_response
    tools_used := tools_used ++ ["LLM (gpt-4o)"]
    prompt_views :=
      { raw_context := raw_context_text
        prepared_context := prepared_context_text
        final_prompt := llm_outputs.final_prompt }
    metrics :=
      { quality_score := quality.score
        retrieval_mode := mode
        token_usage :=
          { raw_context_tokens := raw_tokens
            prepared_context_tokens := prepared_tokens
            prompt_tokens := llm_outputs.prompt_tokens } } }

/-! ## Scratchpad logging (`modules/context_engineering.py`, `Scratchpad`) -/

/-- Whether the filesystem write underlying `Scratchpad.log` succeeds.
`Scratchpad.log` (`modules/context_engineering.py`, lines 28-51) wraps the
read of existing entries in try/except, but the final
`open(self.path, "w")` / `json.dump` is unguarded, so a write failure
raises out of `log`. -/
inductive ScratchpadEnv where
  | writable
  | writeFails
deriving DecidableEq, Repr

/-- `Scratchpad.log(query, step, content, metadata)` as observed by its
caller: succeeds when the backing file is writable, raises otherwise. -/
def scratchpad_log (env : ScratchpadEnv) : Except String Unit :=
  match env with
  | ScratchpadEnv.writable => Except.ok ()
  | ScratchpadEnv.writeFails => Except.error "OSError: scratchpad write failed"

/-- `AdvancedRAG.run_pipeline` including its `self.scratchpad.log` calls,
which the source invokes without any try/except: Start; Retrieval (vector
branch); Retrieval (graph branch); Evaluation; Correction when the quality
label is FAIR or POOR; Completion. A raising log call propagates out of
`run_pipeline`. -/
def run_pipeline_logged (env : ScratchpadEnv) (count_tokens : String → Nat)
    (vector_results : List Chunk) (graph_results : GraphBundle)
    (llm_invoke : Except String String) (quality_draw : ℚ)
    (query : String) (mode : RetrievalMode) (role : String) :
    Except String PipelineResponse := do
  scratchpad_log env
  if mode = RetrievalMode.Traditional ∨ mode = RetrievalMode.Hybrid then
    scratchpad_log env
  if mode = RetrievalMode.KnowledgeGraph ∨ mode = RetrievalMode.Hybrid then
    scratchpad_log env
  let selection := select_context (pipeline_budgeter_input mode vector_results graph_results) 3000
  let quality := evaluate_quality quality_draw selection.selected_chunks
  scratchpad_log env
  if quality.label = "FAIR" ∨ quality.label = "POOR" then
    scratchpad_log env
  scratchpad_log env
  return run_pipeline count_tokens vector_results graph_results llm_invoke
    quality_draw query mode role

/-! ## Theorems about the orchestrator -/

/-- C4 (code bug): `evaluate_quality` is NOT a deterministic function of
`(query, context)`. Its score is the `random.uniform(0.4, 0.95)` draw, so
two calls with the identical context `[]` but different PRNG draws — both
inside the uniform range `[0.4, 0.95]`, so both reachable — return
different `QualityAssessment` values (different score and even different
label). -/
theorem evaluate_quality_depends_on_rng :
    evaluate_quality (45/100) [] ≠ evaluate_quality (9/10) [] ∧
    (evaluate_quality (45/100) []).label ≠ (evaluate_quality (9/10) []).label ∧
    ((4:ℚ)/10 ≤ 45/100 ∧ (45:ℚ)/100 ≤ 95/100) ∧
    ((4:ℚ)/10 ≤ 9/10 ∧ (9:ℚ)/10 ≤ 95/100) := by
  refine ⟨?_, ?_, ⟨by norm_num, by norm_num⟩, ⟨by norm_num, by norm_num⟩⟩
  · intro h
    have := congrArg QualityAssessment.score h
    simp only [evaluate_quality] at this
    norm_num at this
  · have h1 : (evaluate_quality (45/100) []).label = "POOR" := by
      simp [evaluate_quality, THRESHOLD_EXCELLENT, THRESHOLD_GOOD, THRESHOLD_FAIR]
      norm_num
    have h2 : (evaluate_quality (9/10) []).label = "EXCELLENT" := by
      simp [evaluate_quality, THRESHOLD_EXCELLENT]
      norm_num
    rw [h1, h2]
    decide

/-- A graph bundle that is plainly non-empty, used to exhibit that Hybrid
mode discards the graph contribution. -/
def sampleGraphBundle : GraphBundle :=
  { nodes := ["Neo4j", "chunk-1"]
    edges := ["MENTIONS"]
    supporting_texts := ["Document graph.pdf mentions Neo4j"] }

/-- C5 counterexample: in Hybrid mode with an empty vector result and a
non-empty graph bundle, the evidence passed to the context budgeter is
empty, and the selected context and sources are empty — the graph
retriever's contribution is never concatenated into context assembly,
contradicting the claim that it is. -/
theorem hybrid_budgeter_ignores_graph_counterexample :
    pipeline_budgeter_input RetrievalMode.Hybrid [] sampleGraphBundle = [] ∧
    sampleGraphBundle.supporting_texts ≠ [] ∧
    (run_pipeline (fun s => s.length) [] sampleGraphBundle (Except.ok "answer")
        (1/2) "What is Neo4j?" RetrievalMode.Hybrid "Architect").sources = [] ∧
    (run_pipeline (fun s => s.length) [] sampleGraphBundle (Except.ok "answer")
        (1/2) "What is Neo4j?" RetrievalMode.Hybrid "Architect").prompt_views.prepared_context =
      "No supporting documents were retrieved." := by
  refine ⟨rfl, ?_, rfl, rfl⟩
  decide

/-- C5 amended: in Hybrid mode `run_pipeline` invokes both retrievers
(`tools_used` lists the vector store, the knowledge graph and the LLM), but
only the vector retriever's output reaches the context budgeter; the graph
bundle is only logged, so the response is entirely independent of it. -/
theorem hybrid_invokes_both_but_graph_unused (count_tokens : String → Nat)
    (vector_results : List Chunk) (g g' : GraphBundle)
    (llm_invoke : Except String String) (quality_draw : ℚ)
    (query role : String) (mode : RetrievalMode) :
    run_pipeline count_tokens vector_results g llm_invoke quality_draw query mode role =
      run_pipeline count_tokens vector_results g' llm_invoke quality_draw query mode role ∧
    pipeline_budgeter_input RetrievalMode.Hybrid vector_results g = vector_results ∧
    (run_pipeline count_tokens vector_results g llm_invoke quality_draw query
        RetrievalMode.Hybrid role).tools_used =
      ["Vector Store (FAISS + Chroma)", "Knowledge Graph (Neo4j)", "LLM (gpt-4o)"] := by
  exact ⟨rfl, rfl, rfl⟩

/-- C6: when the LLM call raises, the exception does not propagate:
`llm_output` is exactly the fallback string embedding the failure reason
(and in particular begins with the `[Fallback Response]` marker), the full
structured response is still assembled — it agrees field-for-field with the
response of a successful run except for `answer` and `llm_output` — and
`metrics.token_usage.prompt_tokens` is the token count of the prompt
constructed before the failed call. -/
theorem generation_failure_fallback (count_tokens : String → Nat)
    (vector_results : List Chunk) (graph_results : GraphBundle)
    (exc ok_content : String) (quality_draw : ℚ)
    (query role : String) (mode : RetrievalMode) :
    (run_pipeline count_tokens vector_results graph_results (Except.error exc)
        quality_draw query mode role).llm_output = fallbackText exc ∧
    (∃ t, (run_pipeline count_tokens vector_results graph_results (Except.error exc)
        quality_draw query mode role).llm_output = "[Fallback Response]" ++ t) ∧
    (run_pipeline count_tokens vector_results graph_results (Except.error exc)
        quality_draw query mode role).metrics.token_usage.prompt_tokens =
      count_tokens ((get_prompt role).trim ++ "\n\n" ++
        user_prompt_of query (format_context_block
          (select_context (pipeline_budgeter_input mode vector_results graph_results)
            3000).selected_chunks 5)) ∧
    run_pipeline count_tokens vector_results graph_results (Except.error exc)
        quality_draw query mode role =
      { run_pipeline count_tokens vector_results graph_results (Except.ok ok_content)
          quality_draw query mode role with
        answer := fallbackText exc
        llm_output := fallbackText exc } := by
  refine ⟨rfl, ⟨" Unable to contact LLM: " ++ exc
    ++ ". Returning synthesized placeholder answer instead.", ?_⟩, rfl, rfl⟩
  show fallbackText exc = _
  unfold fallbackText
  rw [← String.append_assoc, ← String.append_assoc]
  congr 1

/-- C7 (code bug): a failed audit append DOES abort the pipeline. When the
scratchpad file write raises, the very first `scratchpad.log` call
propagates the error out of `run_pipeline`, so `run()` does not return a
well-formed `PipelineResponse`; only when every log write succeeds does the
pipeline return the structured response. -/
theorem audit_write_failure_aborts_pipeline :
    run_pipeline_logged ScratchpadEnv.writeFails (fun s => s.length) []
        sampleGraphBundle (Except.ok "answer") (1/2) "query"
        RetrievalMode.Traditional "Architect" =
      Except.error "OSError: scratchpad write failed" ∧
    (∀ (count_tokens : String → Nat) (vector_results : List Chunk)
        (graph_results : GraphBundle) (llm_invoke : Except String String)
        (quality_draw : ℚ) (query : String) (mode : RetrievalMode) (role : String),
      run_pipeline_logged ScratchpadEnv.writable count_tokens vector_results
          graph_results llm_invoke quality_draw query mode role =
        Except.ok (run_pipeline count_tokens vector_results graph_results
          llm_invoke quality_draw query mode role)) := by
  constructor
  · rfl
  · intro count_tokens vector_results graph_results llm_invoke quality_draw query mode role
    unfold run_pipeline_logged
    cases mode <;> simp only [scratchpad_log] <;> (repeat' split) <;> rfl

/-- C10 (implicit in the code, absent from the spec): the response's
`confidence` field is `"High"` exactly when the quality score (the RNG draw
reported in `metrics.quality_score`) is strictly greater than 0.7, and
`"Medium"` otherwise. -/
theorem confidence_cutoff (count_tokens : String → Nat)
    (vector_results : List Chunk) (graph_results : GraphBundle)
    (llm_invoke : Except String String) (quality_draw : ℚ)
    (query role : String) (mode : RetrievalMode) :
    ((run_pipeline count_tokens vector_results graph_results llm_invoke
        quality_draw query mode role).confidence = "High" ↔ quality_draw > 7/10) ∧
    ((run_pipeline count_tokens vector_results graph_results llm_invoke
        quality_draw query mode role).confidence = "Medium" ↔ ¬ quality_draw > 7/10) ∧
    (run_pipeline count_tokens vector_results graph_results llm_invoke
        quality_draw query mode role).metrics.quality_score = quality_draw := by
  refine ⟨?_, ?_, rfl⟩ <;>
    by_cases h : quality_draw > 7/10 <;>
      simp [run_pipeline, evaluate_quality, h]

/-! ## Graph retriever (`modules/retrieval_modes.py`, `GraphRetriever`) -/

/-- Python `w.strip(".,")`: remove leading and trailing `.` / `,`. -/
def stripPunct (w : String) : String :=
  String.mk (((w.toList.dropWhile fun ch => ch = '.' || ch = ',').reverse.dropWhile
    fun ch => ch = '.' || ch = ',').reverse)

/-- Python `text.split()`: split on whitespace, dropping empty pieces. -/
def pySplit (s : String) : List String :=
  (s.split fun ch => ch.isWhitespace).filter fun w => w ≠ ""

/-- The heuristic entity extraction of `GraphRetriever.ingest_minimal`
(`modules/retrieval_modes.py`, lines 125-128): words starting with an
uppercase letter and longer than 3 characters, stripped of trailing
punctuation, deduplicated (Python `set(...)`), capped at 5
(`list(words)[:5]`). Python iterates the set in an unspecified per-process
order; the model fixes one deterministic order, which idempotence does not
depend on. -/
def extract_entities (text : String) : List String :=
  (((pySplit text).filter fun w =>
      (w.toList.headD 'a').isUpper && decide (w.length > 3)).map stripPunct).dedup.take 5

/-- The Neo4j graph state touched by `GraphRetriever`: `Document` nodes
keyed by `id` carrying `filename`/`page` properties, `Entity` nodes keyed
by `name`, and `MENTIONS` edges `(document id, entity name)`. -/
structure GraphState where
  docs : List (String × String × Int)
  entities : List String
  edges : List (String × String)
deriving DecidableEq, Repr

/-- The Document-node ids present in the graph. -/
def docIds (s : GraphState) : List String :=
  s.docs.map fun d => d.1

/-- The first Cypher statement of `ingest_minimal`
(`MERGE (d:Document {id: $id}) SET d.filename = $filename, d.page = $page`):
upsert a Document node keyed by id, overwriting its properties. -/
def upsert_document (i fn : String) (pg : Int) (s : GraphState) : GraphState :=
  if i ∈ docIds s then
    { s with docs := s.docs.map fun d => if d.1 = i then (i, fn, pg) else d }
  else
    { s with docs := s.docs ++ [(i, fn, pg)] }

/-- The second Cypher statement of `ingest_minimal`
(`MATCH (d:Document {id: $id}) MERGE (e:Entity {name: $name})
MERGE (d)-[:MENTIONS]->(e)`): when the document exists, upsert the Entity
node keyed by name and the MENTIONS edge; when the MATCH finds nothing the
statement creates nothing. -/
def upsert_entity_mention (doc_id name : String) (s : GraphState) : GraphState :=
  if doc_id ∈ docIds s then
    let s1 :=
      if name ∈ s.entities then s
      else { s with entities := s.entities ++ [name] }
    if (doc_id, name) ∈ s1.edges then s1
    else { s1 with edges := s1.edges ++ [(doc_id, name)] }
  else s

/-- The per-document body of `GraphRetriever.ingest_minimal`
(`modules/retrieval_modes.py`, lines 113-136): upsert the Document node,
then upsert an Entity node and a MENTIONS edge for each extracted term. -/
def ingest_chunk (doc : Chunk) (s : GraphState) : GraphState :=
  let s1 := upsert_document doc.id doc.source_filename doc.page s
  (extract_entities doc.text).foldl (fun t name => upsert_entity_mention doc.id name t) s1

/-- `GraphRetriever.ingest_minimal(documents)` (`modules/retrieval_modes.py`,
lines 104-136) acting on the graph state; with no driver (`connected =
false`) it is a no-op. -/
def ingest_minimal (connected : Bool) (documents : List Chunk) (s : GraphState) :
    GraphState :=
  if connected then documents.foldl (fun t doc => ingest_chunk doc t) s else s

/-! ### Upsert lemmas -/

theorem upsert_document_entities (i fn : String) (pg : Int) (s : GraphState) :
    (upsert_document i fn pg s).entities = s.entities := by
  unfold upsert_document
  split <;> rfl

theorem upsert_document_edges (i fn : String) (pg : Int) (s : GraphState) :
    (upsert_document i fn pg s).edges = s.edges := by
  unfold upsert_document
  split <;> rfl

theorem docIds_upsert_document (i fn : String) (pg : Int) (s : GraphState) :
    docIds (upsert_document i fn pg s) =
      if i ∈ docIds s then docIds s else docIds s ++ [i] := by
  unfold upsert_document
  split
  · simp only [docIds, List.map_map]
    apply List.map_congr_left
    intro d _
    by_cases hd : d.1 = i
    · simp [Function.comp, hd]
    · simp [Function.comp, hd]
  · simp [docIds]

theorem mem_docIds_upsert_document_self (i fn : String) (pg : Int) (s : GraphState) :
    i ∈ docIds (upsert_document i fn pg s) := by
  rw [docIds_upsert_document]
  split
  · assumption
  · simp

theorem upsert_entity_mention_docs (doc_id name : String) (s : GraphState) :
    (upsert_entity_mention doc_id name s).docs = s.docs := by
  unfold upsert_entity_mention
  by_cases hd : doc_id ∈ docIds s
  · by_cases hn : name ∈ s.entities
    · by_cases he : (doc_id, name) ∈ s.edges <;> simp [hd, hn, he]
    · by_cases he : (doc_id, name) ∈ s.edges <;> simp [hd, hn, he]
  · simp [hd]

theorem docIds_upsert_entity_mention (doc_id name : String) (s : GraphState) :
    docIds (upsert_entity_mention doc_id name s) = docIds s := by
  simp [docIds, upsert_entity_mention_docs]

theorem mem_entities_upsert_entity_mention (x doc_id name : String) (s : GraphState)
    (h : x ∈ s.entities) : x ∈ (upsert_entity_mention doc_id name s).entities := by
  unfold upsert_entity_mention
  by_cases hd : doc_id ∈ docIds s
  · by_cases hn : name ∈ s.entities
    · by_cases he : (doc_id, name) ∈ s.edges <;> simp [hd, hn, he, h]
    · by_cases he : (doc_id, name) ∈ s.edges <;> simp [hd, hn, he, h]
  · simp [hd, h]

theorem mem_edges_upsert_entity_mention (doc_id name : String) (e : String × String)
    (s : GraphState) (h : e ∈ s.edges) : e ∈ (upsert_entity_mention doc_id name s).edges := by
  unfold upsert_entity_mention
  by_cases hd : doc_id ∈ docIds s
  · by_cases hn : name ∈ s.entities
    · by_cases he : (doc_id, name) ∈ s.edges <;> simp [hd, hn, he, h]
    · by_cases he : (doc_id, name) ∈ s.edges <;> simp [hd, hn, he, h]
  · simp [hd, h]

theorem upsert_entity_mention_registers (doc_id name : String) (s : GraphState)
    (hd : doc_id ∈ docIds s) :
    name ∈ (upsert_entity_mention doc_id name s).entities ∧
    (doc_id, name) ∈ (upsert_entity_mention doc_id name s).edges := by
  unfold upsert_entity_mention
  by_cases hn : name ∈ s.entities
  · by_cases he : (doc_id, name) ∈ s.edges <;> simp [hd, hn, he]
  · by_cases he : (doc_id, name) ∈ s.edges <;> simp [hd, hn, he]

theorem upsert_entity_mention_id (doc_id name : String) (s : GraphState)
    (hd : doc_id ∈ docIds s) (hn : name ∈ s.entities)
    (he : (doc_id, name) ∈ s.edges) : upsert_entity_mention doc_id name s = s := by
  simp [upsert_entity_mention, hd, hn, he]

/-! ### Lemmas about the entity-mention fold of `ingest_chunk` -/

theorem foldl_mention_docs (cid : String) :
    ∀ (names : List String) (s : GraphState),
      (names.foldl (fun t name => upsert_entity_mention cid name t) s).docs = s.docs := by
  intro names
  induction names with
  | nil => intro s; rfl
  | cons n rest ih =>
    intro s
    rw [List.foldl_cons, ih, upsert_entity_mention_docs]

theorem foldl_mention_mem_entities (cid x : String) :
    ∀ (names : List String) (s : GraphState), x ∈ s.entities →
      x ∈ (names.foldl (fun t name => upsert_entity_mention cid name t) s).entities := by
  intro names
  induction names with
  | nil => intro s h; exact h
  | cons n rest ih =>
    intro s h
    rw [List.foldl_cons]
    exact ih _ (mem_entities_upsert_entity_mention x cid n s h)

theorem foldl_mention_mem_edges (cid : String) (e : String × String) :
    ∀ (names : List String) (s : GraphState), e ∈ s.edges →
      e ∈ (names.foldl (fun t name => upsert_entity_mention cid name t) s).edges := by
  intro names
  induction names with
  | nil => intro s h; exact h
  | cons n rest ih =>
    intro s h
    rw [List.foldl_cons]
    exact ih _ (mem_edges_upsert_entity_mention cid n e s h)

theorem foldl_mention_registers (cid : String) :
    ∀ (names : List String) (s : GraphState), cid ∈ docIds s →
      ∀ n ∈ names,
        n ∈ (names.foldl (fun t name => upsert_entity_mention cid name t) s).entities ∧
        (cid, n) ∈ (names.foldl (fun t name => upsert_entity_mention cid name t) s).edges := by
  intro names
  induction names with
  | nil => intro s _ n hn; cases hn
  | cons n0 rest ih =>
    intro s hcid n hn
    rw [List.foldl_cons]
    rcases List.mem_cons.mp hn with rfl | hn
    · obtain ⟨h1, h2⟩ := upsert_entity_mention_registers cid n s hcid
      exact ⟨foldl_mention_mem_entities cid n rest _ h1,
        foldl_mention_mem_edges cid (cid, n) rest _ h2⟩
    · apply ih _ _ n hn
      rw [docIds_upsert_entity_mention]
      exact hcid

theorem foldl_mention_id (cid : String) :
    ∀ (names : List String) (s : GraphState), cid ∈ docIds s →
      (∀ n ∈ names, n ∈ s.entities ∧ (cid, n) ∈ s.edges) →
      names.foldl (fun t name => upsert_entity_mention cid name t) s = s := by
  intro names
  induction names with
  | nil => intro s _ _; rfl
  | cons n0 rest ih =>
    intro s hcid h
    rw [List.foldl_cons,
      upsert_entity_mention_id cid n0 s hcid (h n0 (List.mem_cons_self n0 rest)).1
        (h n0 (List.mem_cons_self n0 rest)).2]
    exact ih s hcid fun n hn => h n (List.mem_cons_of_mem n0 hn)

/-! ### Lemmas about `ingest_chunk` and the ingestion fold -/

theorem docIds_ingest_chunk (ch : Chunk) (s : GraphState) :
    docIds (ingest_chunk ch s) =
      if ch.id ∈ docIds s then docIds s else docIds s ++ [ch.id] := by
  unfold ingest_chunk
  have h1 : docIds ((extract_entities ch.text).foldl
      (fun t name => upsert_entity_mention ch.id name t)
      (upsert_document ch.id ch.source_filename ch.page s)) =
      docIds (upsert_document ch.id ch.source_filename ch.page s) := by
    simp [docIds, foldl_mention_docs]
  rw [h1, docIds_upsert_document]

theorem mem_docIds_ingest_chunk (x : String) (ch : Chunk) (s : GraphState)
    (h : x ∈ docIds s) : x ∈ docIds (ingest_chunk ch s) := by
  rw [docIds_ingest_chunk]
  split
  · exact h
  · exact List.mem_append_left _ h

theorem mem_entities_ingest_chunk (x : String) (ch : Chunk) (s : GraphState)
    (h : x ∈ s.entities) : x ∈ (ingest_chunk ch s).entities := by
  unfold ingest_chunk
  apply foldl_mention_mem_entities
  rw [upsert_document_entities]
  exact h

theorem mem_edges_ingest_chunk (e : String × String) (ch : Chunk) (s : GraphState)
    (h : e ∈ s.edges) : e ∈ (ingest_chunk ch s).edges := by
  unfold ingest_chunk
  apply foldl_mention_mem_edges
  rw [upsert_document_edges]
  exact h

/-- A chunk is registered in a graph state when its Document node, every
extracted Entity node and every corresponding MENTIONS edge are present. -/
def Registered (ch : Chunk) (s : GraphState) : Prop :=
  ch.id ∈ docIds s ∧
  ∀ n ∈ extract_entities ch.text, n ∈ s.entities ∧ (ch.id, n) ∈ s.edges

theorem registered_ingest_chunk_self (ch : Chunk) (s : GraphState) :
    Registered ch (ingest_chunk ch s) := by
  constructor
  · rw [docIds_ingest_chunk]
    split
    · assumption
    · simp
  · unfold ingest_chunk
    apply foldl_mention_registers
    exact mem_docIds_upsert_document_self ch.id ch.source_filename ch.page s

theorem registered_mono_chunk (ch ch' : Chunk) (s : GraphState)
    (h : Registered ch s) : Registered ch (ingest_chunk ch' s) := by
  obtain ⟨h1, h2⟩ := h
  exact ⟨mem_docIds_ingest_chunk ch.id ch' s h1, fun n hn =>
    ⟨mem_entities_ingest_chunk n ch' s (h2 n hn).1,
      mem_edges_ingest_chunk (ch.id, n) ch' s (h2 n hn).2⟩⟩

theorem registered_mono_fold (ch : Chunk) :
    ∀ (l : List Chunk) (s : GraphState), Registered ch s →
      Registered ch (l.foldl (fun t doc => ingest_chunk doc t) s) := by
  intro l
  induction l with
  | nil => intro s h; exact h
  | cons ch0 rest ih =>
    intro s h
    rw [List.foldl_cons]
    exact ih _ (registered_mono_chunk ch ch0 s h)

theorem ingest_fold_registers :
    ∀ (l : List Chunk) (s : GraphState),
      ∀ ch ∈ l, Registered ch (l.foldl (fun t doc => ingest_chunk doc t) s) := by
  intro l
  induction l with
  | nil => intro s ch hch; cases hch
  | cons ch0 rest ih =>
    intro s ch hch
    rw [List.foldl_cons]
    rcases List.mem_cons.mp hch with rfl | hch
    · exact registered_mono_fold ch rest _ (registered_ingest_chunk_self ch s)
    · exact ih _ ch hch

theorem ingest_chunk_stable (ch : Chunk) (s : GraphState) (h : Registered ch s) :
    (ingest_chunk ch s).docs.length = s.docs.length ∧
    docIds (ingest_chunk ch s) = docIds s ∧
    (ingest_chunk ch s).entities = s.entities ∧
    (ingest_chunk ch s).edges = s.edges := by
  obtain ⟨hid, hns⟩ := h
  have hids : docIds (upsert_document ch.id ch.source_filename ch.page s) = docIds s := by
    rw [docIds_upsert_document, if_pos hid]
  have hent := upsert_document_entities ch.id ch.source_filename ch.page s
  have hedg := upsert_document_edges ch.id ch.source_filename ch.page s
  have hlen : (upsert_document ch.id ch.source_filename ch.page s).docs.length =
      s.docs.length := by
    unfold upsert_document
    rw [if_pos hid]
    simp
  have hfold : (extract_entities ch.text).foldl
      (fun t name => upsert_entity_mention ch.id name t)
      (upsert_document ch.id ch.source_filename ch.page s) =
      upsert_document ch.id ch.source_filename ch.page s := by
    apply foldl_mention_id
    · rw [hids]; exact hid
    · intro n hn
      rw [hent, hedg]
      exact hns n hn
  unfold ingest_chunk
  rw [hfold]
  exact ⟨hlen, hids, hent, hedg⟩

theorem ingest_fold_stable :
    ∀ (l : List Chunk) (t : GraphState), (∀ ch ∈ l, Registered ch t) →
      (l.foldl (fun u doc => ingest_chunk doc u) t).docs.length = t.docs.length ∧
      docIds (l.foldl (fun u doc => ingest_chunk doc u) t) = docIds t ∧
      (l.foldl (fun u doc => ingest_chunk doc u) t).entities = t.entities ∧
      (l.foldl (fun u doc => ingest_chunk doc u) t).edges = t.edges := by
  intro l
  induction l with
  | nil => intro t _; exact ⟨rfl, rfl, rfl, rfl⟩
  | cons ch rest ih =>
    intro t h
    obtain ⟨l1, i1, e1, g1⟩ := ingest_chunk_stable ch t (h ch (List.mem_cons_self ch rest))
    have hrest : ∀ ch' ∈ rest, Registered ch' (ingest_chunk ch t) := by
      intro ch' h'
      obtain ⟨a, b⟩ := h ch' (List.mem_cons_of_mem ch h')
      exact ⟨i1 ▸ a, fun n hn => by rw [e1, g1]; exact b n hn⟩
    obtain ⟨L, I, E, G⟩ := ih (ingest_chunk ch t) hrest
    rw [List.foldl_cons]
    exact ⟨by rw [L, l1], by rw [I, i1], by rw [E, e1], by rw [G, g1]⟩

/-- C8: `GraphRetriever.ingest_minimal` is idempotent on the graph state:
ingesting the same chunk list twice yields the same Document node count,
the same Entity node list (hence count) and the same MENTIONS edge list
(hence count) as ingesting it once — upserts keyed by Document `id` and
Entity `name` never create duplicates. Holds both connected and
disconnected. -/
theorem ingest_minimal_idempotent (connected : Bool) (chunks : List Chunk)
    (s : GraphState) :
    (ingest_minimal connected chunks (ingest_minimal connected chunks s)).docs.length =
      (ingest_minimal connected chunks s).docs.length ∧
    (ingest_minimal connected chunks (ingest_minimal connected chunks s)).entities.length =
      (ingest_minimal connected chunks s).entities.length ∧
    (ingest_minimal connected chunks (ingest_minimal connected chunks s)).edges.length =
      (ingest_minimal connected chunks s).edges.length ∧
    (ingest_minimal connected chunks (ingest_minimal connected chunks s)).entities =
      (ingest_minimal connected chunks s).entities ∧
    (ingest_minimal connected chunks (ingest_minimal connected chunks s)).edges =
      (ingest_minimal connected chunks s).edges := by
  cases connected with
  | false => exact ⟨rfl, rfl, rfl, rfl, rfl⟩
  | true =>
    simp only [ingest_minimal, if_pos]
    have hreg := ingest_fold_registers chunks s
    obtain ⟨L, _, E, G⟩ :=
      ingest_fold_stable chunks (chunks.foldl (fun t doc => ingest_chunk doc t) s) hreg
    exact ⟨L, by rw [E], by rw [G], E, G⟩

end ContextEng
